import Mathlib

/-
Shallow embedding of the workflow-patch-and-poll client (comfyrun.py,
predict.py).  Workflow graphs are Python dicts mapping node-id strings to
node dicts; we model a dict as an insertion-ordered association list.
Node dicts may lack any of the keys the code reads (the code defends with
.get / .setdefault), so every modelled field is optional.
-/

namespace ComfyRun

/-- JSON-ish scalar values stored in a node's inputs map.  Python floats are
modelled as rationals. -/
inductive JVal where
  | str (s : String)
  | int (n : Int)
  | rat (q : ℚ)
  deriving DecidableEq

/-- One entry of a node's outputs map: a dict whose relevant key is
out.get of the string key for the output kind. -/
structure OutSpec where
  type : Option String
  deriving DecidableEq

/-- A node record of the workflow dict.  class_type, inputs and outputs model
node.get of the respective keys (absent key = none); extra stands for any
further keys of the dict, which no operation of the program reads or
writes. -/
structure Node where
  class_type : Option String
  inputs : Option (List (String × JVal))
  outputs : Option (List (String × OutSpec))
  extra : List (String × JVal)
  deriving DecidableEq

/-- A workflow graph: dict of node-id to node, in insertion order. -/
abbrev Workflow := List (String × Node)

/-- Assignment d[k] = v on an insertion-ordered dict: an existing key keeps
its position, a new key is appended at the end. -/
def setKey {V : Type} (k : String) (v : V) : List (String × V) → List (String × V)
  | [] => [(k, v)]
  | (k₁, v₁) :: rest => if k₁ = k then (k, v) :: rest else (k₁, v₁) :: setKey k v rest

/-- pat is an initial segment of s, on character lists. -/
def hasPre : List Char → List Char → Bool
  | [], _ => true
  | _ :: _, [] => false
  | c :: cs, d :: ds => c = d && hasPre cs ds

/-- pat occurs somewhere in s, on character lists. -/
def hasSub (pat : List Char) : List Char → Bool
  | [] => hasPre pat []
  | d :: ds => hasPre pat (d :: ds) || hasSub pat ds

/-- Python substring containment: pat in s. -/
def strContains (s pat : String) : Bool := hasSub pat.data s.data

/-- Body of the loop of inject_input_image for one node: on a node whose
class_type equals LoadImage exactly, materialise the inputs dict
(node.setdefault) and set its image key to the filename; any other node is
untouched. -/
def injectImageNode (filename : String) (node : Node) : Node :=
  if node.class_type = some "LoadImage" then
    { node with inputs := some (setKey "image" (JVal.str filename) (node.inputs.getD [])) }
  else node

/-- inject_input_image: sets the image input on all LoadImage nodes
(comfyrun.py lines 48-56). -/
def inject_input_image (workflow : Workflow) (filename : String) : Workflow :=
  workflow.map fun p => (p.1, injectImageNode filename p.2)

/-- Body of the loop of inject_parameters for one node (comfyrun.py lines
63-74): ctype = node.get of class_type with default empty string; the inputs
dict is materialised unconditionally by node.setdefault; seed goes to
noise_seed on nodes whose ctype contains RandomNoise, and steps, scale,
sampler go to num_steps, cfg_scale, sampler_name on nodes whose ctype
contains KSampler, each only when provided. -/
def injectParamsNode (seed : Option Int) (steps : Option Int) (scale : Option ℚ)
    (sampler : Option String) (node : Node) : Node :=
  let ctype := node.class_type.getD ""
  let inputs0 := node.inputs.getD []
  let inputs1 :=
    match seed with
    | some s => if strContains ctype "RandomNoise" then setKey "noise_seed" (JVal.int s) inputs0 else inputs0
    | none => inputs0
  let inputs2 :=
    if strContains ctype "KSampler" then
      let i1 := match steps with
        | some v => setKey "num_steps" (JVal.int v) inputs1
        | none => inputs1
      let i2 := match scale with
        | some v => setKey "cfg_scale" (JVal.rat v) i1
        | none => i1
      match sampler with
      | some v => setKey "sampler_name" (JVal.str v) i2
      | none => i2
    else inputs1
  { node with inputs := some inputs2 }

/-- inject_parameters: injects seed and sampler params into RandomNoise and
KSampler nodes (comfyrun.py lines 59-74).  The function takes exactly the
four optional parameters of the source; there is no scheduler parameter. -/
def inject_parameters (workflow : Workflow) (seed : Option Int) (steps : Option Int)
    (scale : Option ℚ) (sampler : Option String) : Workflow :=
  workflow.map fun p => (p.1, injectParamsNode seed steps scale sampler p.2)

/-- Exact-equality test of the first loop of find_output_node. -/
def isSaveImage (node : Node) : Bool := node.class_type = some "SaveImage"

/-- Test of the second loop of find_output_node: some output of the node has
kind IMAGE. -/
def nodeHasImageOutput (node : Node) : Bool :=
  (node.outputs.getD []).any fun po => po.2.type = some "IMAGE"

/-- First loop of find_output_node: first node id whose class_type equals
SaveImage exactly, in iteration order. -/
def findSaver : Workflow → Option String
  | [] => none
  | (id, node) :: rest => if isSaveImage node then some id else findSaver rest

/-- Second loop of find_output_node: first node id declaring an output of
kind IMAGE, in iteration order. -/
def findImageNode : Workflow → Option String
  | [] => none
  | (id, node) :: rest => if nodeHasImageOutput node then some id else findImageNode rest

/-- find_output_node (comfyrun.py lines 77-88).  none models the raised
RuntimeError when neither loop finds a node. -/
def find_output_node (workflow : Workflow) : Option String :=
  match findSaver workflow with
  | some id => some id
  | none => findImageNode workflow

/-- State of the output directory: none when the directory does not exist,
some of the entry list when it exists. -/
abbrev DirState := Option (List String)

/-- Filesystem failure of a directory operation. -/
inductive FsError where
  | missingDir
  deriving DecidableEq

/-- shutil.rmtree: removes the directory tree, failing when it is absent. -/
def rmtree (st : DirState) : Except FsError DirState :=
  match st with
  | none => Except.error FsError.missingDir
  | some _ => Except.ok none

/-- Path.mkdir with parents and exist_ok set: creates the directory empty
when absent, keeps it when present, and never fails. -/
def mkdirExistOk (st : DirState) : Except FsError DirState :=
  match st with
  | some d => Except.ok (some d)
  | none => Except.ok (some [])

/-- prepare_output_dir (comfyrun.py lines 16-23): if the directory exists,
rmtree it; then mkdir with parents and exist_ok. -/
def prepare_output_dir (st : DirState) : Except FsError DirState := do
  let st₁ ← if st.isSome then rmtree st else pure st
  mkdirExistOk st₁

/-- An artifact reference as it appears in the poll responses and in
download_output: a dict with a filename and, optionally, an artifact kind
tag and a subfolder (img.get of each key). -/
structure ImageRef where
  filename : String
  type : Option String
  subfolder : Option String
  deriving DecidableEq

/-- The selection of lines 119-120 of await_completion: among the returned
images prefer those whose kind tag is output; when none carry that tag,
keep the whole list. -/
def preferOutput (images : List ImageRef) : List ImageRef :=
  let output_imgs := images.filter fun i => i.type = some "output"
  if output_imgs.isEmpty then images else output_imgs

/-- Outcome of await_completion.  success carries the returned list and the
number of poll requests issued; timeout models the raised TimeoutError and
carries the number of poll requests issued before it; fuelOut is reached
only when the bounding fuel of the embedding runs out. -/
inductive AwaitResult where
  | success (images : List ImageRef) (polls : Nat)
  | timeout (polls : Nat)
  | fuelOut
  deriving DecidableEq

/-- Loop of await_completion (comfyrun.py lines 113-122).  now k is the
value of the k-th call of the wall clock (call 0 computes the deadline,
call i+1 is the check guarding iteration i); poll i is the artifact list of
the i-th poll request.  Sleeping between polls only advances the external
clock, which the now oracle already describes, so it leaves no trace
here. -/
def awaitLoop (now : Nat → ℤ) (poll : Nat → List ImageRef) (deadline : ℤ) :
    Nat → Nat → AwaitResult
  | 0, _ => AwaitResult.fuelOut
  | fuel + 1, i =>
    if now (i + 1) < deadline then
      let images := poll i
      if images.isEmpty then awaitLoop now poll deadline fuel (i + 1)
      else AwaitResult.success (preferOutput images) (i + 1)
    else AwaitResult.timeout i

/-- await_completion (comfyrun.py lines 106-122): deadline is the clock at
entry plus the timeout; the loop polls while the clock reads below the
deadline.  interval is consumed only by the sleep between polls, which the
clock oracle absorbs. -/
def await_completion (fuel : Nat) (now : Nat → ℤ) (poll : Nat → List ImageRef)
    (interval timeout : ℤ) : AwaitResult :=
  let _ := interval
  awaitLoop now poll (now 0 + timeout) fuel 0

/-- Query parameters of a GET request against the view endpoint. -/
abbrev Params := List (String × String)

/-- A response of the remote server: HTTP status and body bytes. -/
structure HttpResp where
  status : Nat
  body : List Nat
  deriving DecidableEq

/-- Python truthiness of an optional string: present and nonempty. -/
def truthy (o : Option String) : Bool :=
  match o with
  | some s => !(s = "")
  | none => false

/-- The params dict built by download_output lines 129-133: filename always,
then the kind tag and the subfolder, each only when truthy. -/
def viewParams (image : ImageRef) : Params :=
  [("filename", image.filename)]
    ++ (if truthy image.type then [("type", image.type.getD "")] else [])
    ++ (if truthy image.subfolder then [("subfolder", image.subfolder.getD "")] else [])

/-- Membership test of a key in the params dict (k in params). -/
def hasKey (ps : Params) (k : String) : Bool := ps.any fun p => p.1 = k

/-- params.pop of a key: the dict without that key's binding. -/
def removeKey (ps : Params) (k : String) : Params := ps.filter fun p => ¬(p.1 = k)

/-- Success test of resp.raise_for_status.  The HTTP client follows
redirects, so the terminal statuses it surfaces are the 2xx it accepts and
the 4xx/5xx on which raise_for_status raises; we model failure as any
non-2xx status. -/
def is2xx (status : Nat) : Bool := 200 ≤ status && status < 300

/-- Outcome of download_output: either the file outDir/filename was written
with the response bytes, or raise_for_status raised at the given status and
nothing was written. -/
inductive FetchResult where
  | saved (filename : String) (bytes : List Nat)
  | failed (status : Nat)
  deriving DecidableEq

/-- download_output (comfyrun.py lines 125-143).  srv maps the query
parameters of a GET against the view endpoint to the server response.
Returns the list of requests issued, in order, and the outcome: on a 404
first response with a type parameter present, the type parameter is
dropped and the request reissued once; the final response then goes
through raise_for_status and, on success, its bytes are written to
outDir slash filename. -/
def download_output (image : ImageRef) (srv : Params → HttpResp) :
    List Params × FetchResult :=
  let params := viewParams image
  let resp := srv params
  if resp.status = 404 && hasKey params "type" then
    let params₂ := removeKey params "type"
    let resp₂ := srv params₂
    ([params, params₂],
      if is2xx resp₂.status then FetchResult.saved image.filename resp₂.body
      else FetchResult.failed resp₂.status)
  else
    ([params],
      if is2xx resp.status then FetchResult.saved image.filename resp.body
      else FetchResult.failed resp.status)

/-- The upload name of one run (comfyrun.py line 173, predict.py line 82):
the hex form of a fresh random UUID, an underscore, then the original input
filename. -/
def unique_name (hex : String) (filename : String) : String := hex ++ "_" ++ filename

/-- The run-parameter bundle of the specification, restricted to the fields
named by the parameter-injection rule: seed, step count, guidance scale,
sampler name, scheduler name, each independently optional. -/
structure RunParams where
  seed : Option Int
  steps : Option Int
  scale : Option ℚ
  sampler : Option String
  scheduler : Option String
  deriving DecidableEq

/-- Specification-side parameter injection, stated for comparison with
inject_parameters.  It follows the spec wording: for nodes whose type
denotes a noise source set the seed when provided; for nodes whose type
denotes a sampler set step count, guidance scale, sampler name and
scheduler name when each is provided.  The four fields shared with the
source use the source's input keys so that the comparison isolates the
scheduler; the scheduler uses the key named after the bundle field. -/
def injectParametersSpec (workflow : Workflow) (params : RunParams) : Workflow :=
  workflow.map fun p =>
    let node := p.2
    let ctype := node.class_type.getD ""
    let inputs0 := node.inputs.getD []
    let inputs1 :=
      if strContains ctype "RandomNoise" then
        match params.seed with
        | some s => setKey "noise_seed" (JVal.int s) inputs0
        | none => inputs0
      else inputs0
    let inputs2 :=
      if strContains ctype "KSampler" then
        let i1 := match params.steps with
          | some v => setKey "num_steps" (JVal.int v) inputs1
          | none => inputs1
        let i2 := match params.scale with
          | some v => setKey "cfg_scale" (JVal.rat v) i1
          | none => i1
        let i3 := match params.sampler with
          | some v => setKey "sampler_name" (JVal.str v) i2
          | none => i2
        match params.scheduler with
        | some v => setKey "scheduler" (JVal.str v) i3
        | none => i3
      else inputs1
    (p.1, { node with inputs := some inputs2 })

/-- Inputs value of one node of a workflow, read through the two dicts. -/
def lookupInputs (w : Workflow) (id k : String) : Option JVal :=
  match List.lookup id w with
  | some n => List.lookup k (n.inputs.getD [])
  | none => none

/-- A node dict with none of the modelled keys present. -/
def nodeBare : Node := { class_type := none, inputs := none, outputs := none, extra := [] }

/-- A sampler node of exact type KSampler with an empty inputs dict. -/
def nodeK : Node := { class_type := some "KSampler", inputs := some [], outputs := none, extra := [] }

/-- A sampler node whose type strictly contains KSampler. -/
def nodeKAdv : Node :=
  { class_type := some "KSamplerAdvanced", inputs := some [], outputs := none, extra := [] }

/-- A noise node whose type strictly contains RandomNoise. -/
def nodeNoise : Node :=
  { class_type := some "RandomNoiseMixer", inputs := some [], outputs := none, extra := [] }

/-- A node whose type strictly contains LoadImage without being equal to it. -/
def nodeLoadMask : Node :=
  { class_type := some "LoadImageMask", inputs := some [], outputs := none, extra := [] }

/-- An image-loader node of exact type LoadImage. -/
def nodeLoader : Node :=
  { class_type := some "LoadImage", inputs := some [("image", JVal.str "old.png")],
    outputs := none, extra := [] }

/-- A node whose type strictly contains SaveImage without being equal to it,
and which declares an IMAGE output. -/
def nodeSaveExt : Node :=
  { class_type := some "SaveImageExtended", inputs := some [],
    outputs := some [("0", { type := some "IMAGE" })], extra := [] }

/-- One-node workflow holding the exact KSampler node. -/
def gK : Workflow := [("3", nodeK)]

/-- A workflow with no LoadImage node. -/
def gNoLoader : Workflow := [("1", nodeBare), ("3", nodeK)]

/-- The spec bundle that provides only a scheduler. -/
def pSched : RunParams :=
  { seed := none, steps := none, scale := none, sampler := none, scheduler := some "karras" }

/-- Clock oracle of the await_completion witnesses: the k-th reading is k. -/
def wNow : Nat → ℤ := fun k => (k : ℤ)

/-- Artifact reference of the await_completion witness. -/
def wImg : ImageRef := { filename := "a.png", type := some "output", subfolder := none }

/-- Poll oracle of the await_completion witness: empty on the first poll,
nonempty on the second. -/
def wPoll : Nat → List ImageRef := fun i => if i = 1 then [wImg] else []

/-- Artifact reference of the download_output witness: carries a kind tag. -/
def dImg : ImageRef := { filename := "out.png", type := some "output", subfolder := none }

/-- Server oracle of the download_output witness: 404 whenever a type
parameter is present, 200 with a one-byte body when absent. -/
def dSrv : Params → HttpResp := fun ps =>
  if hasKey ps "type" then { status := 404, body := [] } else { status := 200, body := [7] }

/-- Poll oracle that never yields an artifact. -/
def wPollE : Nat → List ImageRef := fun _ => []

section Lemmas

/-- Looking up the key just assigned yields the assigned value. -/
theorem lookup_setKey_self {V : Type} (k : String) (v : V) (l : List (String × V)) :
    List.lookup k (setKey k v l) = some v := by
  induction l with
  | nil => simp [setKey, List.lookup]
  | cons hd tl ih =>
    obtain ⟨k₁, v₁⟩ := hd
    by_cases h : k₁ = k
    · simp [setKey, h, List.lookup]
    · have hb : (k == k₁) = false := beq_eq_false_iff_ne.mpr (Ne.symm h)
      simp [setKey, h, List.lookup, hb, ih]

/-- Assigning one key leaves lookups of any other key unchanged. -/
theorem lookup_setKey_ne {V : Type} (k k₂ : String) (v : V) (l : List (String × V))
    (h : ¬ k = k₂) : List.lookup k (setKey k₂ v l) = List.lookup k l := by
  have hb : (k == k₂) = false := beq_eq_false_iff_ne.mpr h
  induction l with
  | nil => simp [setKey, List.lookup, hb]
  | cons hd tl ih =>
    obtain ⟨k₁, v₁⟩ := hd
    by_cases h₁ : k₁ = k₂
    · subst h₁
      simp [setKey, List.lookup, hb]
    · simp [setKey, h₁, List.lookup, ih]

/-- The first loop of find_output_node is the first match of the exact
SaveImage test, in iteration order. -/
theorem findSaver_eq_find (w : Workflow) :
    findSaver w = (w.find? fun p => isSaveImage p.2).map Prod.fst := by
  induction w with
  | nil => rfl
  | cons hd tl ih =>
    obtain ⟨id, node⟩ := hd
    by_cases h : isSaveImage node
    · simp [findSaver, h]
    · simp [findSaver, h, ih]

/-- The second loop of find_output_node is the first match of the
IMAGE-output test, in iteration order. -/
theorem findImageNode_eq_find (w : Workflow) :
    findImageNode w = (w.find? fun p => nodeHasImageOutput p.2).map Prod.fst := by
  induction w with
  | nil => rfl
  | cons hd tl ih =>
    obtain ⟨id, node⟩ := hd
    by_cases h : nodeHasImageOutput node
    · simp [findImageNode, h]
    · simp [findImageNode, h, ih]

/-- Mapping node ids over a per-node patch leaves the id list unchanged. -/
theorem map_fst_patch (g : Node → Node) (w : Workflow) :
    ((w.map fun p => (p.1, g p.2)).map Prod.fst) = w.map Prod.fst := by
  induction w with
  | nil => rfl
  | cons hd tl ih => simp [ih]

end Lemmas

/-- Claim C3: find_output_node returns the first node in iteration order
whose class_type is exactly SaveImage; when no such node exists, the first
node in iteration order declaring an output of kind IMAGE; and it fails
(returns none, the raised RuntimeError) exactly when neither rule matches.
On a graph with several SaveImage nodes the result is the first one in
iteration order, as List.find? selects it. -/
theorem find_output_node_spec (workflow : Workflow) :
    (find_output_node workflow =
      match workflow.find? fun p => isSaveImage p.2 with
      | some p => some p.1
      | none => (workflow.find? fun p => nodeHasImageOutput p.2).map Prod.fst)
    ∧ (find_output_node workflow = none ↔
        ((workflow.find? fun p => isSaveImage p.2) = none
          ∧ (workflow.find? fun p => nodeHasImageOutput p.2) = none)) := by
  have h₁ := findSaver_eq_find workflow
  have h₂ := findImageNode_eq_find workflow
  constructor
  · rw [find_output_node, h₁, h₂]
    cases workflow.find? fun p => isSaveImage p.2 <;> rfl
  · rw [find_output_node, h₁, h₂]
    cases hs : workflow.find? fun p => isSaveImage p.2 <;>
      cases hi : workflow.find? fun p => nodeHasImageOutput p.2 <;> simp

/-- Claim C7: for every prior state of the output directory,
prepare_output_dir succeeds (in particular it never errors when the
directory is absent) and leaves the directory existing and empty; running
it twice in a row leaves an existing empty directory both times. -/
theorem prepare_output_dir_spec (st : DirState) :
    prepare_output_dir st = Except.ok (some [])
    ∧ (prepare_output_dir st).bind prepare_output_dir = Except.ok (some []) := by
  cases st <;> exact ⟨rfl, rfl⟩

/-- Claim C8: the upload name prefixes the original filename with the fresh
random token, so two runs whose tokens differ produce distinct upload names
for the same input filename. -/
theorem unique_name_spec (hex₁ hex₂ filename : String) (h : ¬ hex₁ = hex₂) :
    ¬ unique_name hex₁ filename = unique_name hex₂ filename
    ∧ unique_name hex₁ filename = hex₁ ++ "_" ++ filename := by
  refine ⟨fun heq => h ?_, rfl⟩
  have hd : hex₁.data ++ "_".data ++ filename.data
      = hex₂.data ++ "_".data ++ filename.data := by
    have := congrArg String.data heq
    simpa [unique_name] using this
  have hu : hex₁.data ++ "_".data = hex₂.data ++ "_".data :=
    List.append_cancel_right hd
  have hdata : hex₁.data = hex₂.data := List.append_cancel_right hu
  cases hex₁ with
  | mk d₁ =>
    cases hex₂ with
    | mk d₂ => exact congrArg String.mk hdata

/-- Witness for C8 at concrete tokens. -/
theorem unique_name_spec_witness :
    ¬ unique_name "a3f0" "cat.png" = unique_name "77b2" "cat.png" :=
  (unique_name_spec "a3f0" "77b2" "cat.png" (by decide)).1

/-- Claim C6: inject_input_image rewrites the image input of every node of
exact type LoadImage (so, of the unique one when exactly one exists),
leaves every node of any other type completely unchanged, and on a graph
with no LoadImage node it is the identity and does not fail. -/
theorem inject_input_image_spec (workflow : Workflow) (filename : String) (node : Node) :
    ((∀ p, p ∈ workflow → ¬ p.2.class_type = some "LoadImage") →
        inject_input_image workflow filename = workflow)
    ∧ (node.class_type = some "LoadImage" →
        injectImageNode filename node
          = { node with inputs := some (setKey "image" (JVal.str filename) (node.inputs.getD [])) })
    ∧ (¬ node.class_type = some "LoadImage" → injectImageNode filename node = node)
    ∧ inject_input_image workflow filename
        = workflow.map fun p => (p.1, injectImageNode filename p.2) := by
  refine ⟨?_, fun h => by simp [injectImageNode, h], fun h => by simp [injectImageNode, h], rfl⟩
  induction workflow with
  | nil => intro _; rfl
  | cons hd tl ih =>
    intro hno
    have h₁ : ¬ hd.2.class_type = some "LoadImage" := hno hd (List.mem_cons_self hd tl)
    have h₂ := ih fun p hp => hno p (List.mem_cons_of_mem hd hp)
    simp [inject_input_image] at h₂ ⊢
    exact ⟨by simp [injectImageNode, h₁], h₂⟩

/-- Witness for C6: a graph with no image-loader node is untouched, and a
LoadImage node has its image input set. -/
theorem inject_input_image_spec_witness :
    inject_input_image gNoLoader "x.png" = gNoLoader
    ∧ injectImageNode "x.png" nodeLoader
        = { nodeLoader with
            inputs := some (setKey "image" (JVal.str "x.png") (nodeLoader.inputs.getD [])) } :=
  ⟨(inject_input_image_spec gNoLoader "x.png" nodeBare).1 (by decide),
    (inject_input_image_spec gNoLoader "x.png" nodeLoader).2.1 (by decide)⟩

/-- Counterexample for C5: on a node dict lacking an inputs key,
inject_parameters with every parameter absent is not the identity; the
unconditional node.setdefault materialises an empty inputs dict. -/
theorem patch_frame_cex :
    ¬ inject_parameters [("1", nodeBare)] none none none none = [("1", nodeBare)]
    ∧ inject_parameters [("1", nodeBare)] none none none none
        = [("1", { nodeBare with inputs := some [] })] := by
  exact ⟨by decide, by decide⟩

/-- Claim C5 as amended: both patch operations preserve node ids and order
and never change class_type, outputs or the remaining keys of any node;
inject_input_image leaves every node it does not match completely
unchanged; inject_parameters leaves every node it does not match unchanged
except that it materialises an empty inputs dict on nodes lacking one, and
with every parameter absent it does no more than that; in particular with
every parameter absent it is the identity on every graph whose nodes all
carry an inputs dict. -/
theorem patch_frame_spec (filename : String) (seed steps : Option Int) (scale : Option ℚ)
    (sampler : Option String) (node : Node) (w : Workflow) :
    (inject_input_image w filename).map Prod.fst = w.map Prod.fst
    ∧ (inject_parameters w seed steps scale sampler).map Prod.fst = w.map Prod.fst
    ∧ (injectImageNode filename node).class_type = node.class_type
    ∧ (injectImageNode filename node).outputs = node.outputs
    ∧ (injectImageNode filename node).extra = node.extra
    ∧ (injectParamsNode seed steps scale sampler node).class_type = node.class_type
    ∧ (injectParamsNode seed steps scale sampler node).outputs = node.outputs
    ∧ (injectParamsNode seed steps scale sampler node).extra = node.extra
    ∧ (¬ node.class_type = some "LoadImage" → injectImageNode filename node = node)
    ∧ (strContains (node.class_type.getD "") "RandomNoise" = false →
        strContains (node.class_type.getD "") "KSampler" = false →
        injectParamsNode seed steps scale sampler node
          = { node with inputs := some (node.inputs.getD []) })
    ∧ injectParamsNode none none none none node = { node with inputs := some (node.inputs.getD []) }
    ∧ ((∀ p, p ∈ w → p.2.inputs.isSome = true) →
        inject_parameters w none none none none = w) := by
  refine ⟨map_fst_patch _ w, map_fst_patch _ w,
    ?_, ?_, ?_, rfl, rfl, rfl,
    fun h => by simp [injectImageNode, h],
    fun h₁ h₂ => by cases seed <;> simp [injectParamsNode, h₁, h₂],
    by cases hK : strContains (node.class_type.getD "") "KSampler" <;>
        simp [injectParamsNode, hK],
    ?_⟩
  · unfold injectImageNode; split <;> rfl
  · unfold injectImageNode; split <;> rfl
  · unfold injectImageNode; split <;> rfl
  · induction w with
    | nil => intro _; rfl
    | cons hd tl ih =>
      intro hall
      have h₁ : hd.2.inputs.isSome = true := hall hd (List.mem_cons_self hd tl)
      have h₂ := ih fun p hp => hall p (List.mem_cons_of_mem hd hp)
      obtain ⟨id, nd⟩ := hd
      obtain ⟨ct, inp, outs, ex⟩ := nd
      obtain ⟨l, hl⟩ := Option.isSome_iff_exists.mp h₁
      subst hl
      have hnode : injectParamsNode none none none none ⟨ct, some l, outs, ex⟩
          = ⟨ct, some l, outs, ex⟩ := by
        cases hK : strContains (Option.getD ct "") "KSampler" <;>
          simp [injectParamsNode, hK]
      simp [inject_parameters] at h₂ ⊢
      exact ⟨hnode, h₂⟩

/-- Witness for C5 as amended: a KSampler node is ignored by image
injection, a bare node only gains an empty inputs dict even with every
parameter provided, and a graph whose nodes carry inputs dicts is untouched
by parameterless injection. -/
theorem patch_frame_spec_witness :
    injectImageNode "y.png" nodeK = nodeK
    ∧ injectParamsNode (some 5) (some 20) (some 7) (some "euler") nodeBare
        = { nodeBare with inputs := some (nodeBare.inputs.getD []) }
    ∧ inject_parameters gK none none none none = gK :=
  ⟨(patch_frame_spec "y.png" (some 5) (some 20) (some 7) (some "euler") nodeK gK).2.2.2.2.2.2.2.2.1
      (by decide),
    (patch_frame_spec "y.png" (some 5) (some 20) (some 7) (some "euler") nodeBare gK).2.2.2.2.2.2.2.2.2.1
      (by decide) (by decide),
    (patch_frame_spec "y.png" none none none none nodeBare gK).2.2.2.2.2.2.2.2.2.2.2
      (by decide)⟩

/-- Counterexample for C4: the code's inject_parameters takes no scheduler
parameter, so a bundle providing only a scheduler cannot be honoured: the
specification-side injection writes a scheduler input on the KSampler node
while the code, called with the four parameters it has (all absent here,
and also with every one of them provided), never writes one. -/
theorem inject_parameters_scheduler_cex :
    injectParametersSpec gK pSched
        ≠ inject_parameters gK pSched.seed pSched.steps pSched.scale pSched.sampler
    ∧ lookupInputs (injectParametersSpec gK pSched) "3" "scheduler" = some (JVal.str "karras")
    ∧ lookupInputs (inject_parameters gK none none none none) "3" "scheduler" = none
    ∧ lookupInputs (inject_parameters gK (some 1) (some 20) (some 7) (some "euler"))
        "3" "scheduler" = none := by
  refine ⟨by decide, by decide, by decide, by decide⟩

/-- Claim C4 as amended: inject_parameters writes the seed into noise_seed
on every node whose type contains RandomNoise when seed is provided, and on
every node whose type contains KSampler writes the step count into
num_steps, the guidance scale into cfg_scale and the sampler name into
sampler_name, each when the respective parameter is provided; it accepts no
scheduler parameter and leaves any scheduler input of every node untouched. -/
theorem inject_parameters_params_spec (seed steps : Option Int) (scale : Option ℚ)
    (sampler : Option String) (node : Node) (w : Workflow) :
    (∀ s, seed = some s → strContains (node.class_type.getD "") "RandomNoise" = true →
      List.lookup "noise_seed" ((injectParamsNode seed steps scale sampler node).inputs.getD [])
        = some (JVal.int s))
    ∧ (∀ v, steps = some v → strContains (node.class_type.getD "") "KSampler" = true →
      List.lookup "num_steps" ((injectParamsNode seed steps scale sampler node).inputs.getD [])
        = some (JVal.int v))
    ∧ (∀ v, scale = some v → strContains (node.class_type.getD "") "KSampler" = true →
      List.lookup "cfg_scale" ((injectParamsNode seed steps scale sampler node).inputs.getD [])
        = some (JVal.rat v))
    ∧ (∀ v, sampler = some v → strContains (node.class_type.getD "") "KSampler" = true →
      List.lookup "sampler_name" ((injectParamsNode seed steps scale sampler node).inputs.getD [])
        = some (JVal.str v))
    ∧ List.lookup "scheduler" ((injectParamsNode seed steps scale sampler node).inputs.getD [])
        = List.lookup "scheduler" (node.inputs.getD [])
    ∧ inject_parameters w seed steps scale sampler
        = w.map fun p => (p.1, injectParamsNode seed steps scale sampler p.2) := by
  refine ⟨?_, ?_, ?_, ?_, ?_, rfl⟩
  · rintro s rfl hRN
    cases hK : strContains (node.class_type.getD "") "KSampler" <;>
      cases steps <;> cases scale <;> cases sampler <;>
        simp [injectParamsNode, hRN, hK, lookup_setKey_self, lookup_setKey_ne]
  · rintro v rfl hK
    cases hRN : strContains (node.class_type.getD "") "RandomNoise" <;>
      cases seed <;> cases scale <;> cases sampler <;>
        simp [injectParamsNode, hRN, hK, lookup_setKey_self, lookup_setKey_ne]
  · rintro v rfl hK
    cases hRN : strContains (node.class_type.getD "") "RandomNoise" <;>
      cases seed <;> cases steps <;> cases sampler <;>
        simp [injectParamsNode, hRN, hK, lookup_setKey_self, lookup_setKey_ne]
  · rintro v rfl hK
    cases hRN : strContains (node.class_type.getD "") "RandomNoise" <;>
      cases seed <;> cases steps <;> cases scale <;>
        simp [injectParamsNode, hRN, hK, lookup_setKey_self, lookup_setKey_ne]
  · cases hRN : strContains (node.class_type.getD "") "RandomNoise" <;>
      cases hK : strContains (node.class_type.getD "") "KSampler" <;>
        cases seed <;> cases steps <;> cases scale <;> cases sampler <;>
          simp [injectParamsNode, hRN, hK, lookup_setKey_ne]

/-- Witness for C4 as amended, on a KSampler node with every parameter
provided. -/
theorem inject_parameters_params_spec_witness :
    List.lookup "num_steps"
        ((injectParamsNode (some 5) (some 20) (some 7) (some "euler") nodeK).inputs.getD [])
      = some (JVal.int 20)
    ∧ List.lookup "sampler_name"
        ((injectParamsNode (some 5) (some 20) (some 7) (some "euler") nodeK).inputs.getD [])
      = some (JVal.str "euler") :=
  ⟨(inject_parameters_params_spec (some 5) (some 20) (some 7) (some "euler") nodeK []).2.1
      20 rfl (by decide),
    (inject_parameters_params_spec (some 5) (some 20) (some 7) (some "euler") nodeK []).2.2.2.1
      "euler" rfl (by decide)⟩

/-- Claim C9: parameter injection matches node types by substring
containment (so a KSamplerAdvanced node receives the sampler parameters and
any type containing RandomNoise receives the seed), while inject_input_image
touches only nodes of exact type LoadImage and the image-saver rule of
find_output_node fires only on exact type SaveImage. -/
theorem node_type_matching_spec (seed steps : Option Int) (scale : Option ℚ)
    (sampler : Option String) (filename : String) (node : Node) (w : Workflow) :
    strContains "KSamplerAdvanced" "KSampler" = true
    ∧ strContains "RandomNoiseMixer" "RandomNoise" = true
    ∧ strContains "LoadImageMask" "LoadImage" = true
    ∧ strContains "SaveImageExtended" "SaveImage" = true
    ∧ (∀ v, steps = some v → strContains (node.class_type.getD "") "KSampler" = true →
        List.lookup "num_steps" ((injectParamsNode seed steps scale sampler node).inputs.getD [])
          = some (JVal.int v))
    ∧ (∀ s, seed = some s → strContains (node.class_type.getD "") "RandomNoise" = true →
        List.lookup "noise_seed" ((injectParamsNode seed steps scale sampler node).inputs.getD [])
          = some (JVal.int s))
    ∧ (¬ node.class_type = some "LoadImage" → injectImageNode filename node = node)
    ∧ ((∀ p, p ∈ w → ¬ p.2.class_type = some "SaveImage") →
        find_output_node w = findImageNode w) := by
  refine ⟨by decide, by decide, by decide, by decide, ?_, ?_,
    fun h => by simp [injectImageNode, h], ?_⟩
  · rintro v rfl hK
    cases hRN : strContains (node.class_type.getD "") "RandomNoise" <;>
      cases seed <;> cases scale <;> cases sampler <;>
        simp [injectParamsNode, hRN, hK, lookup_setKey_self, lookup_setKey_ne]
  · rintro s rfl hRN
    cases hK : strContains (node.class_type.getD "") "KSampler" <;>
      cases steps <;> cases scale <;> cases sampler <;>
        simp [injectParamsNode, hRN, hK, lookup_setKey_self, lookup_setKey_ne]
  · intro hns
    have hfind : (w.find? fun p => isSaveImage p.2) = none := by
      rw [List.find?_eq_none]
      intro p hp
      simp [isSaveImage]
      exact hns p hp
    rw [find_output_node, findSaver_eq_find, hfind]
    rfl

/-- Witness for C9: the substring rule fires on KSamplerAdvanced and the
exact rules ignore LoadImageMask and SaveImageExtended. -/
theorem node_type_matching_spec_witness :
    List.lookup "num_steps"
        ((injectParamsNode none (some 20) none none nodeKAdv).inputs.getD [])
      = some (JVal.int 20)
    ∧ injectImageNode "x.png" nodeLoadMask = nodeLoadMask
    ∧ find_output_node [("9", nodeSaveExt)] = findImageNode [("9", nodeSaveExt)] :=
  ⟨(node_type_matching_spec none (some 20) none none "x.png" nodeKAdv []).2.2.2.2.1
      20 rfl (by decide),
    (node_type_matching_spec none none none none "x.png" nodeLoadMask []).2.2.2.2.2.2.1
      (by decide),
    (node_type_matching_spec none none none none "x.png" nodeBare [("9", nodeSaveExt)]).2.2.2.2.2.2.2
      (by decide)⟩

/-- A run of the poll loop that returns a list issued exactly n polls, of
which the last (and only the last) was nonempty, the returned list is the
output-preferring selection from it, and every issued poll was guarded by a
clock reading below the deadline. -/
theorem awaitLoop_success_facts (now : Nat → ℤ) (poll : Nat → List ImageRef) (deadline : ℤ) :
    ∀ (fuel i : Nat) (images : List ImageRef) (n : Nat),
      awaitLoop now poll deadline fuel i = AwaitResult.success images n →
      i < n ∧ ¬ poll (n - 1) = [] ∧ images = preferOutput (poll (n - 1))
        ∧ (∀ j, i ≤ j → j < n - 1 → poll j = [])
        ∧ (∀ j, i ≤ j → j < n → now (j + 1) < deadline) := by
  intro fuel
  induction fuel with
  | zero => intro i images n h; exact AwaitResult.noConfusion h
  | succ fuel ih =>
    intro i images n h
    simp only [awaitLoop] at h
    by_cases hc : now (i + 1) < deadline
    · rw [if_pos hc] at h
      by_cases he : (poll i).isEmpty = true
      · rw [if_pos he] at h
        have hpi : poll i = [] := List.isEmpty_iff.mp he
        have hrec := ih (i + 1) images n h
        refine ⟨Nat.lt_of_succ_lt hrec.1, hrec.2.1, hrec.2.2.1, ?_, ?_⟩
        · intro j hij hj
          rcases Nat.eq_or_lt_of_le hij with heq | hlt
          · exact heq ▸ hpi
          · exact hrec.2.2.2.1 j hlt hj
        · intro j hij hj
          rcases Nat.eq_or_lt_of_le hij with heq | hlt
          · exact heq ▸ hc
          · exact hrec.2.2.2.2 j hlt hj
      · rw [if_neg he] at h
        have hinj : preferOutput (poll i) = images ∧ i + 1 = n := by
          cases h; exact ⟨rfl, rfl⟩
        obtain ⟨himg, hn⟩ := hinj
        subst hn
        have hne : ¬ poll i = [] := fun hnil => he (by simp [hnil])
        refine ⟨Nat.lt_succ_self i, by simpa using hne, by simp [himg.symm], ?_, ?_⟩
        · intro j hij hj
          omega
        · intro j hij hj
          have : j = i := by omega
          exact this ▸ hc
    · rw [if_neg hc] at h
      exact AwaitResult.noConfusion h

/-- A run of the poll loop that timed out issued exactly n polls, all of
them empty and all guarded by a clock reading below the deadline, and the
check that stopped the loop saw the deadline reached. -/
theorem awaitLoop_timeout_facts (now : Nat → ℤ) (poll : Nat → List ImageRef) (deadline : ℤ) :
    ∀ (fuel i n : Nat),
      awaitLoop now poll deadline fuel i = AwaitResult.timeout n →
      i ≤ n ∧ (∀ j, i ≤ j → j < n → poll j = [] ∧ now (j + 1) < deadline)
        ∧ deadline ≤ now (n + 1) := by
  intro fuel
  induction fuel with
  | zero => intro i n h; exact AwaitResult.noConfusion h
  | succ fuel ih =>
    intro i n h
    simp only [awaitLoop] at h
    by_cases hc : now (i + 1) < deadline
    · rw [if_pos hc] at h
      by_cases he : (poll i).isEmpty = true
      · rw [if_pos he] at h
        have hpi : poll i = [] := List.isEmpty_iff.mp he
        have hrec := ih (i + 1) n h
        refine ⟨Nat.le_of_succ_le hrec.1, ?_, hrec.2.2⟩
        intro j hij hj
        rcases Nat.eq_or_lt_of_le hij with heq | hlt
        · exact heq ▸ ⟨hpi, hc⟩
        · exact hrec.2.1 j hlt hj
      · rw [if_neg he] at h
        exact AwaitResult.noConfusion h
    · rw [if_neg hc] at h
      have hn : i = n := by cases h; rfl
      subst hn
      exact ⟨le_rfl, fun j hij hj => absurd (lt_of_le_of_lt hij hj) (lt_irrefl i),
        not_lt.mp hc⟩

/-- Claim C2: when await_completion returns, it returns the
output-preferring selection from the first poll that yielded a nonempty
list, every earlier poll was empty, and every issued poll was guarded by a
clock check strictly before the deadline of entry time plus timeout; when
it raises TimeoutError, every poll it issued was empty and pre-deadline,
and the check that stopped it saw the deadline reached, so no further poll
is ever issued at or past the deadline. -/
theorem await_completion_spec (fuel : Nat) (now : Nat → ℤ) (poll : Nat → List ImageRef)
    (interval timeout : ℤ) :
    (∀ images n, await_completion fuel now poll interval timeout = AwaitResult.success images n →
        1 ≤ n ∧ ¬ poll (n - 1) = [] ∧ images = preferOutput (poll (n - 1))
        ∧ (∀ j, j < n - 1 → poll j = []) ∧ (∀ j, j < n → now (j + 1) < now 0 + timeout))
    ∧ (∀ n, await_completion fuel now poll interval timeout = AwaitResult.timeout n →
        (∀ j, j < n → poll j = [] ∧ now (j + 1) < now 0 + timeout)
        ∧ now 0 + timeout ≤ now (n + 1)) := by
  constructor
  · intro images n h
    have hf := awaitLoop_success_facts now poll (now 0 + timeout) fuel 0 images n h
    exact ⟨hf.1, hf.2.1, hf.2.2.1, fun j hj => hf.2.2.2.1 j (Nat.zero_le j) hj,
      fun j hj => hf.2.2.2.2 j (Nat.zero_le j) hj⟩
  · intro n h
    have hf := awaitLoop_timeout_facts now poll (now 0 + timeout) fuel 0 n h
    exact ⟨fun j hj => hf.2.1 j (Nat.zero_le j) hj, hf.2.2⟩

/-- Witness for C2: a run that succeeds on its second poll before the
deadline, and a run that times out after one empty poll. -/
theorem await_completion_spec_witness :
    wPoll 0 = [] ∧ [wImg] = preferOutput (wPoll 1) ∧ wNow 2 < wNow 0 + 10
    ∧ wPollE 0 = [] ∧ wNow 0 + 2 ≤ wNow 2 := by
  have hs := (await_completion_spec 5 wNow wPoll 1 10).1 [wImg] 2 (by decide)
  have ht := (await_completion_spec 5 wNow wPollE 1 2).2 1 (by decide)
  exact ⟨hs.2.2.2.1 0 (by decide), hs.2.2.1, hs.2.2.2.2 1 (by decide),
    (ht.1 0 (by decide)).1, ht.2⟩

/-- Claim C10: with a non-positive timeout and a clock that has not gone
backwards between entry and the first check, await_completion raises
TimeoutError immediately, issuing zero poll requests. -/
theorem await_completion_nonpositive_timeout (fuel : Nat) (now : Nat → ℤ)
    (poll : Nat → List ImageRef) (interval timeout : ℤ)
    (htimeout : timeout ≤ 0) (hclock : now 0 ≤ now 1) :
    await_completion (fuel + 1) now poll interval timeout = AwaitResult.timeout 0 := by
  have hc : ¬ now (0 + 1) < now 0 + timeout := by
    show ¬ now 1 < now 0 + timeout
    push_neg
    linarith
  simp [await_completion, awaitLoop, hc]

/-- Witness for C10 at a zero timeout and a monotone clock. -/
theorem await_completion_nonpositive_timeout_witness :
    await_completion 1 wNow wPollE 1 0 = AwaitResult.timeout 0 :=
  await_completion_nonpositive_timeout 0 wNow wPollE 1 0 le_rfl (by norm_num [wNow])

/-- The params dict of the view request carries a type key exactly when the
artifact reference carries a truthy kind tag. -/
theorem hasKey_viewParams_type (image : ImageRef) :
    hasKey (viewParams image) "type" = truthy image.type := by
  cases h₁ : truthy image.type <;> cases h₂ : truthy image.subfolder <;>
    simp [viewParams, hasKey, h₁, h₂]

/-- Claim C1: download_output always issues a first view request whose
params carry the type parameter exactly when the artifact has a (truthy)
type tag; it issues a second request, with exactly the type parameter
removed, precisely when the first response is a 404 and the type parameter
was included, and never a third; and the outcome is decided by the last
response issued: a 2xx writes the body bytes to outDir slash the artifact's
filename, anything else fails with that status and writes nothing. -/
theorem download_output_spec (image : ImageRef) (srv : Params → HttpResp) :
    hasKey (viewParams image) "type" = truthy image.type
    ∧ ((download_output image srv).1 = [viewParams image]
        ∨ (download_output image srv).1
            = [viewParams image, removeKey (viewParams image) "type"])
    ∧ ((download_output image srv).1.length = 2 ↔
        ((srv (viewParams image)).status = 404 ∧ truthy image.type = true))
    ∧ (download_output image srv).2 =
        (if is2xx (srv ((download_output image srv).1.getLastD (viewParams image))).status
         then FetchResult.saved image.filename
            (srv ((download_output image srv).1.getLastD (viewParams image))).body
         else FetchResult.failed
            (srv ((download_output image srv).1.getLastD (viewParams image))).status) := by
  have hkey := hasKey_viewParams_type image
  refine ⟨hkey, ?_, ?_, ?_⟩ <;>
  · by_cases h404 : (srv (viewParams image)).status = 404 <;>
      cases htype : truthy image.type <;>
        simp_all [download_output, hkey]

/-- Witness for C1: against a server that answers 404 whenever a type
parameter is present and 200 with a one-byte body when it is absent, the
operation issues exactly two requests and saves the body of the second. -/
theorem download_output_spec_witness :
    (download_output dImg dSrv).1.length = 2
    ∧ (download_output dImg dSrv).2 = FetchResult.saved "out.png" [7] := by
  have h := (download_output_spec dImg dSrv).2.2.1.mpr (by decide)
  exact ⟨h, by decide⟩

end ComfyRun
